import Mathlib

/-!
Verification of the chatbot conversation converter.

This file gives a shallow embedding of the three Python source files of the
repository — `chatbot_convert.py` (format detection, dispatch, and the
dash-separator Markdown renderer), `chat_format_base.py` (the delimiter-based
Markdown renderer used by the HTML handler), and `chatgpt_format_handler.py`
(the HTML-to-Markdown engine and the ChatGPT HTML extractor) — and proves or
refutes the specification claims about them.

Conventions of the embedding:
- Python values flowing through the JSON handlers are modelled by the `Json`
  inductive; Python `in`, `dict.get`, `d[k]`, truthiness and `str()` are
  modelled by `pyIn`, `pyGetD`, `jindex`, `pyTruthy` and `pyStr`.
- Python exceptions that the code can raise are modelled by the `ConvErr`
  error type threaded through `Except`.
- The HTML parse tree handed over by BeautifulSoup is the `Node` inductive;
  BeautifulSoup operations (`find`, `find_all`, `.string`, `get_text`) are
  embedded as recursive tree functions.
- The recursive HTML-to-Markdown engine threads its mutable list stack
  explicitly and is written with a structural fuel parameter so that all
  definitions compute; the public wrappers supply fuel derived from the node
  size, which is proved / checked sufficient wherever a theorem needs it.
- The file-timestamp collaborator is out of scope (per the spec); handlers are
  embedded with no timestamp, which renders as the literal "Unknown".
-/

namespace ChatConv

/-! ## Python string primitives -/

/-- Whitespace test matching Python `str.isspace` on the ASCII range. -/
def pyIsSpace (c : Char) : Bool :=
  c == ' ' || c == '\t' || c == '\n' || c == '\r' || c == '\x0b' || c == '\x0c'

/-- Drop chars satisfying `p` from the right end of a list. -/
def dropRightWhile (p : Char → Bool) (l : List Char) : List Char :=
  (l.reverse.dropWhile p).reverse

/-- Python `s.strip()` (strip whitespace from both ends). -/
def pyStrip (s : String) : String :=
  String.mk (dropRightWhile pyIsSpace (s.toList.dropWhile pyIsSpace))

/-- Python `s.strip(chars)`: strip any character of `chars` from both ends. -/
def pyStripSet (chars s : String) : String :=
  String.mk (dropRightWhile (fun c => chars.toList.contains c)
    (s.toList.dropWhile (fun c => chars.toList.contains c)))

/-- Python `s.rstrip(chars)`: strip any character of `chars` from the right. -/
def pyRstripSet (chars s : String) : String :=
  String.mk (dropRightWhile (fun c => chars.toList.contains c) s.toList)

/-- Python `sub in s` for strings: substring containment. -/
def strContains (s sub : String) : Bool :=
  s.toList.tails.any (fun t => sub.toList.isPrefixOf t)

/-- Python `s.lower()` (ASCII range). -/
def pyLower (s : String) : String := String.mk (s.toList.map Char.toLower)

/-- Replace every occurrence of the character `c` by the string `new`
(Python `s.replace(c, new)` for a one-character pattern). -/
def replChar (c : Char) (new : String) (s : String) : String :=
  String.mk (s.toList.flatMap (fun d => if d == c then new.toList else [d]))

/-- Python `s.replace("\r\n", "\n")`. -/
def replCRLF (s : String) : String := String.mk (replCRLFList s.toList)
where
  replCRLFList : List Char → List Char
    | '\r' :: '\n' :: rest => '\n' :: replCRLFList rest
    | c :: rest => c :: replCRLFList rest
    | [] => []

/-- The regex rewrite `re.sub(r"\n\x7b3,\x7d", "\n\n", s)`: every maximal run
of three or more newlines is replaced by exactly two.  Implemented as a scan
that counts consecutive newlines and drops every newline after the second of
a run. -/
def collapseNl (s : String) : String := String.mk (go 0 s.toList)
where
  go : Nat → List Char → List Char
    | _, [] => []
    | k, '\n' :: rest =>
      if k ≥ 2 then go (k + 1) rest else '\n' :: go (k + 1) rest
    | _, c :: rest => c :: go 0 rest

/-- Python `s.splitlines()` (line breaks: `\r\n`, `\r`, `\n`; no trailing
empty segment for a trailing break; empty string gives the empty list). -/
def pySplitlines (s : String) : List String := go s.toList []
where
  go : List Char → List Char → List String
    | '\r' :: '\n' :: rest, acc => String.mk acc.reverse :: go rest []
    | '\r' :: rest, acc => String.mk acc.reverse :: go rest []
    | '\n' :: rest, acc => String.mk acc.reverse :: go rest []
    | c :: rest, acc => go rest (c :: acc)
    | [], [] => []
    | [], acc => [String.mk acc.reverse]

/-- Split on whitespace, dropping empty pieces (Python `s.split()`), used for
matching multi-valued HTML `class` attributes. -/
def splitWs (s : String) : List String := go s.toList []
where
  go : List Char → List Char → List String
    | c :: rest, acc =>
      if pyIsSpace c then
        (if acc.isEmpty then [] else [String.mk acc.reverse]) ++ go rest []
      else go rest (c :: acc)
    | [], [] => []
    | [], acc => [String.mk acc.reverse]

/-! ## JSON values and Python dynamic semantics -/

/-- A parsed JSON value (also standing for the Python objects the converter
passes around: dicts, lists, strings, numbers, booleans, None). -/
inductive Json where
  | jnull
  | jbool (b : Bool)
  | jnum (n : Int)
  | jstr (s : String)
  | jarr (l : List Json)
  | jobj (kvs : List (String × Json))
  deriving Repr

/-- Python `==` on JSON-like values. -/
def jsonBeq : Json → Json → Bool
  | .jnull, .jnull => true
  | .jbool a, .jbool b => a == b
  | .jnum a, .jnum b => a == b
  | .jstr a, .jstr b => a == b
  | .jarr a, .jarr b =>
    match a, b with
    | [], [] => true
    | x :: xs, y :: ys => jsonBeq x y && jsonBeq (.jarr xs) (.jarr ys)
    | _, _ => false
  | .jobj a, .jobj b =>
    match a, b with
    | [], [] => true
    | (k1, v1) :: xs, (k2, v2) :: ys =>
      k1 == k2 && jsonBeq v1 v2 && jsonBeq (.jobj xs) (.jobj ys)
    | _, _ => false
  | _, _ => false

instance : BEq Json := ⟨jsonBeq⟩

/-- Python truthiness of a JSON-like value. -/
def pyTruthy : Json → Bool
  | .jnull => false
  | .jbool b => b
  | .jnum n => n != 0
  | .jstr s => s ≠ ""
  | .jarr l => !l.isEmpty
  | .jobj kvs => !kvs.isEmpty

/-- Node count of a JSON value, used to supply fuel for `pyStr`. -/
def jsize : Json → Nat
  | .jnull => 1
  | .jbool _ => 1
  | .jnum _ => 1
  | .jstr _ => 1
  | .jarr l => 1 + jsizeList l
  | .jobj kvs => 1 + jsizeKVs kvs
where
  jsizeList : List Json → Nat
    | [] => 0
    | j :: rest => jsize j + jsizeList rest
  jsizeKVs : List (String × Json) → Nat
    | [] => 0
    | (_, v) :: rest => jsize v + jsizeKVs rest

mutual

/-- Fueled core of Python `str()` on JSON-like values. -/
def pyStrF : Nat → Json → String
  | _, .jnull => "None"
  | _, .jbool true => "True"
  | _, .jbool false => "False"
  | _, .jnum n => toString n
  | _, .jstr s => s
  | 0, .jarr _ => ""
  | f + 1, .jarr l =>
    "[" ++ String.intercalate ", " (l.map (fun j => pyReprF f j)) ++ "]"
  | 0, .jobj _ => ""
  | f + 1, .jobj kvs =>
    "\x7b" ++ String.intercalate ", "
      (kvs.map (fun kv => "\x27" ++ kv.1 ++ "\x27: " ++ pyReprF f kv.2)) ++ "\x7d"

/-- Fueled core of Python `repr()` on JSON-like values (strings quoted). -/
def pyReprF : Nat → Json → String
  | _, .jstr s => "\x27" ++ s ++ "\x27"
  | 0, _ => ""
  | f + 1, j => pyStrF f j

end

/-- Python `str()` of a JSON-like value, as used by the f-strings of the
Markdown renderer.  The scalar cases are direct; containers render through the
fueled core with enough fuel for their depth. -/
def pyStr (j : Json) : String :=
  match j with
  | .jnull => "None"
  | .jbool true => "True"
  | .jbool false => "False"
  | .jnum n => toString n
  | .jstr s => s
  | .jarr l => pyStrF (jsize (.jarr l)) (.jarr l)
  | .jobj kvs => pyStrF (jsize (.jobj kvs)) (.jobj kvs)

/-- The Python exceptions reachable from `convert_format`:
the two `ValueError`s the converter raises itself, plus the `TypeError`,
`KeyError` and `AttributeError` that its dynamic field accesses can raise. -/
inductive ConvErr where
  | unsupportedFormat
  | unsupportedOutput (fmt : String)
  | typeError
  | keyError
  | attributeError
  deriving Repr, DecidableEq

/-- Python `k in j` (`__contains__`): key test on dicts, substring test on
strings, membership test on lists; `TypeError` otherwise. -/
def pyIn (k : String) : Json → Except ConvErr Bool
  | .jobj kvs => .ok (kvs.any (fun kv => kv.1 == k))
  | .jstr s => .ok (strContains s k)
  | .jarr l => .ok (l.any (fun j => jsonBeq j (.jstr k)))
  | _ => .error .typeError

/-- Python `j.get(k, d)`: dict lookup with default; `AttributeError` when the
receiver is not a dict. -/
def pyGetD (j : Json) (k : String) (d : Json) : Except ConvErr Json :=
  match j with
  | .jobj kvs =>
    .ok (((kvs.find? (fun kv => kv.1 == k)).map (fun kv => kv.2)).getD d)
  | _ => .error .attributeError

/-- Python `j[k]` with a string key: dict lookup raising `KeyError` when the
key is absent, `TypeError` when the receiver is not a dict. -/
def jindex (j : Json) (k : String) : Except ConvErr Json :=
  match j with
  | .jobj kvs =>
    match kvs.find? (fun kv => kv.1 == k) with
    | some kv => .ok kv.2
    | none => .error .keyError
  | _ => .error .typeError

/-- Python iteration `for x in j`: the elements of a list, the keys of a
dict, the one-character strings of a string; `TypeError` otherwise. -/
def itemsOf : Json → Except ConvErr (List Json)
  | .jarr l => .ok l
  | .jobj kvs => .ok (kvs.map (fun kv => Json.jstr kv.1))
  | .jstr s => .ok (s.toList.map (fun c => Json.jstr (String.mk [c])))
  | _ => .error .typeError

/-! ## chatbot_convert.py — handlers, detection, dispatch -/

/-- The concrete handler classes registered in `detect_format` of
`chatbot_convert.py` (note: `ChatGPTFormatHandler` is not among them). -/
inductive Handler where
  | playground
  | workbench
  deriving Repr, DecidableEq

/-- PlaygroundFormatHandler.can_handle: `"input" in json_data`. -/
def playground_can_handle (j : Json) : Except ConvErr Bool := pyIn "input" j

/-- WorkbenchFormatHandler.can_handle: `"messages" in json_data`. -/
def workbench_can_handle (j : Json) : Except ConvErr Bool := pyIn "messages" j

/-- ChatGPTFormatHandler.can_handle (from `chatgpt_format_handler.py`): the
input is a string containing both `<article` and `data-message-author-role`. -/
def chatgpt_can_handle (j : Json) : Bool :=
  match j with
  | .jstr s => strContains s "<article" && strContains s "data-message-author-role"
  | _ => false

/-- detect_format of `chatbot_convert.py`: probes
`[PlaygroundFormatHandler, WorkbenchFormatHandler]` in order and raises
`ValueError("Unsupported chat format")` when neither matches. -/
def detect_format (j : Json) : Except ConvErr Handler :=
  match playground_can_handle j with
  | .error e => .error e
  | .ok true => .ok .playground
  | .ok false =>
    match workbench_can_handle j with
    | .error e => .error e
    | .ok true => .ok .workbench
    | .ok false => .error .unsupportedFormat

/-- ChatFormatHandler._create_markdown_structure (identical in
`chatbot_convert.py` and `chat_format_base.py`); with no file timestamp the
timestamp renders as "Unknown". -/
def mdStructure (model : String) : String :=
  "# Chat Transcript\n\n## Session Information\n\n" ++
  "**Model:** " ++ model ++ "\n" ++
  "**Timestamp:** Unknown\n\n" ++
  "## Conversation\n\n"

/-- ChatFormatHandler._format_message of `chatbot_convert.py`
(dash-separator scheme): empty/falsy content yields nothing, otherwise
the f-string with the trailing `\n\n---\n\n` separator. -/
def formatMessageCc (role content : Json) : String :=
  if pyTruthy content then
    "**" ++ pyStr role ++ "**: " ++ pyStr content ++ "\n\n---\n\n"
  else ""

/-- One step of the loop in ChatFormatHandler._format_messages of
`chatbot_convert.py`: `message["role"]` then `message.get("content", "")`. -/
def formatConcatCc : List Json → Except ConvErr String
  | [] => .ok ""
  | m :: rest =>
    match jindex m "role" with
    | .error e => .error e
    | .ok role =>
      match pyGetD m "content" (.jstr "") with
      | .error e => .error e
      | .ok content =>
        match formatConcatCc rest with
        | .error e => .error e
        | .ok s => .ok (formatMessageCc role content ++ s)

/-- ChatFormatHandler._format_messages of `chatbot_convert.py`:
concatenate the per-message blocks, then `markdown.rstrip("---\n\n") + "\n"`
(an rstrip over the character set consisting of the dash and the newline). -/
def formatMessagesCc (msgs : List Json) : Except ConvErr String :=
  match formatConcatCc msgs with
  | .error e => .error e
  | .ok s => .ok (pyRstripSet "---\n\n" s ++ "\n")

/-- The inner scan of PlaygroundFormatHandler._convert_to_messages:
`next((item.get("text") for item in content if item.get("type") == ty), "")`. -/
def firstText (ty : String) : List Json → Except ConvErr Json
  | [] => .ok (.jstr "")
  | it :: rest =>
    match pyGetD it "type" .jnull with
    | .error e => .error e
    | .ok t =>
      if jsonBeq t (.jstr ty) then pyGetD it "text" .jnull
      else firstText ty rest

/-- PlaygroundFormatHandler._convert_to_messages: map each input item with a
`user` role to the first `input_text` entry and each `assistant` item to the
first `output_text` entry, skipping items whose extracted text is falsy and
items with any other role. -/
def convertToMessages : List Json → Except ConvErr (List Json)
  | [] => .ok []
  | m :: rest =>
    match pyGetD m "role" .jnull with
    | .error e => .error e
    | .ok role =>
      match pyGetD m "content" (.jarr []) with
      | .error e => .error e
      | .ok content =>
        if jsonBeq role (.jstr "user") then
          match itemsOf content with
          | .error e => .error e
          | .ok citems =>
            match firstText "input_text" citems with
            | .error e => .error e
            | .ok text =>
              match convertToMessages rest with
              | .error e => .error e
              | .ok tail =>
                .ok (if pyTruthy text then
                  Json.jobj [("role", .jstr "user"), ("content", text)] :: tail
                else tail)
        else if jsonBeq role (.jstr "assistant") then
          match itemsOf content with
          | .error e => .error e
          | .ok citems =>
            match firstText "output_text" citems with
            | .error e => .error e
            | .ok text =>
              match convertToMessages rest with
              | .error e => .error e
              | .ok tail =>
                .ok (if pyTruthy text then
                  Json.jobj [("role", .jstr "assistant"), ("content", text)] :: tail
                else tail)
        else convertToMessages rest

/-- PlaygroundFormatHandler.to_markdown. -/
def playground_to_markdown (j : Json) : Except ConvErr String :=
  match pyGetD j "model" (.jstr "unknown") with
  | .error e => .error e
  | .ok model =>
    match pyGetD j "input" (.jarr []) with
    | .error e => .error e
    | .ok inp =>
      match itemsOf inp with
      | .error e => .error e
      | .ok items =>
        match convertToMessages items with
        | .error e => .error e
        | .ok msgs =>
          match formatMessagesCc msgs with
          | .error e => .error e
          | .ok body => .ok (mdStructure (pyStr model) ++ body)

/-- PlaygroundFormatHandler.to_workbench. -/
def playground_to_workbench (j : Json) : Except ConvErr Json :=
  match pyGetD j "input" (.jarr []) with
  | .error e => .error e
  | .ok inp =>
    match itemsOf inp with
    | .error e => .error e
    | .ok items =>
      match convertToMessages items with
      | .error e => .error e
      | .ok msgs => .ok (.jobj [("messages", .jarr msgs)])

/-- WorkbenchFormatHandler.to_markdown. -/
def workbench_to_markdown (j : Json) : Except ConvErr String :=
  match jindex j "messages" with
  | .error e => .error e
  | .ok msgs =>
    match itemsOf msgs with
    | .error e => .error e
    | .ok items =>
      match formatMessagesCc items with
      | .error e => .error e
      | .ok body => .ok (mdStructure "unknown" ++ body)

/-- WorkbenchFormatHandler.to_workbench: return `self.json_data` unchanged. -/
def workbench_to_workbench (j : Json) : Except ConvErr Json := .ok j

/-- The output of `convert_format`: a Markdown string or a workbench value. -/
inductive ConvOut where
  | md (s : String)
  | wb (j : Json)
  deriving Repr

/-- Handler dispatch for the markdown output branch. -/
def handler_to_markdown : Handler → Json → Except ConvErr String
  | .playground, j => playground_to_markdown j
  | .workbench, j => workbench_to_markdown j

/-- Handler dispatch for the workbench output branch. -/
def handler_to_workbench : Handler → Json → Except ConvErr Json
  | .playground, j => playground_to_workbench j
  | .workbench, j => workbench_to_workbench j

/-- convert_format of `chatbot_convert.py`: detect, then dispatch on the
output format, raising `ValueError("Unsupported output format: ...")` for any
other format selector. -/
def convert_format (j : Json) (fmt : String) : Except ConvErr ConvOut :=
  match detect_format j with
  | .error e => .error e
  | .ok h =>
    if fmt == "markdown" then
      match handler_to_markdown h j with
      | .error e => .error e
      | .ok s => .ok (.md s)
    else if fmt == "workbench" then
      match handler_to_workbench h j with
      | .error e => .error e
      | .ok out => .ok (.wb out)
    else .error (.unsupportedOutput fmt)

/-! ## The HTML parse tree (BeautifulSoup collaborator output)

A DOM node is a text leaf (NavigableString) or an element with tag name,
attribute map and ordered children.  `Node` and `NodeList` are mutually
inductive so that all tree traversals are structurally recursive and
therefore compute inside the kernel. -/

mutual

/-- A DOM node: text leaf or element. -/
inductive Node where
  | text (s : String)
  | elem (tag : String) (attrs : List (String × String)) (children : NodeList)

/-- An ordered sequence of DOM nodes. -/
inductive NodeList where
  | nil
  | cons (n : Node) (rest : NodeList)

end

/-- Build a `NodeList` from a plain list (concrete-tree construction). -/
def nl : List Node → NodeList
  | [] => .nil
  | n :: rest => .cons n (nl rest)

/-- Tag name of a node (empty for a text leaf). -/
def tagOf : Node → String
  | .text _ => ""
  | .elem t _ _ => t

/-- Children of a node (empty for a text leaf). -/
def childrenOf : Node → NodeList
  | .text _ => .nil
  | .elem _ _ cs => cs

/-- Attribute lookup on an element (BeautifulSoup `node.get(k)`). -/
def attrLookup (n : Node) (k : String) : Option String :=
  match n with
  | .elem _ attrs _ => (attrs.find? (fun kv => kv.1 == k)).map (fun kv => kv.2)
  | .text _ => none

/-- Attribute lookup with default (BeautifulSoup `node.get(k, d)`). -/
def attrGetD (n : Node) (k d : String) : String := (attrLookup n k).getD d

mutual

/-- Node count of a DOM node (fuel source for the rendering engine). -/
def sizeN : Node → Nat
  | .text _ => 1
  | .elem _ _ cs => 1 + sizeL cs

/-- Node count of a node sequence. -/
def sizeL : NodeList → Nat
  | .nil => 0
  | .cons n rest => sizeN n + sizeL rest

end

mutual

/-- BeautifulSoup `find_all(pred)` over a forest: all matching elements in
document (preorder) order. -/
def findAllNodes (p : Node → Bool) : NodeList → List Node
  | .nil => []
  | .cons n rest => findInNode p n ++ findAllNodes p rest

/-- All matching elements of a node and its descendants, preorder. -/
def findInNode (p : Node → Bool) : Node → List Node
  | .text _ => []
  | .elem t a cs =>
    (if p (.elem t a cs) then [Node.elem t a cs] else []) ++ findAllNodes p cs

end

mutual

/-- BeautifulSoup `find(pred)` over a forest: first matching element in
document (preorder) order. -/
def findNodeL (p : Node → Bool) : NodeList → Option Node
  | .nil => none
  | .cons n rest =>
    match findNodeN p n with
    | some m => some m
    | none => findNodeL p rest

/-- First matching element of a node and its descendants, preorder. -/
def findNodeN (p : Node → Bool) : Node → Option Node
  | .text _ => none
  | .elem t a cs =>
    if p (.elem t a cs) then some (.elem t a cs) else findNodeL p cs

end

mutual

/-- All text-leaf strings of a node, in document order
(the `.strings` of BeautifulSoup). -/
def textsN : Node → List String
  | .text s => [s]
  | .elem _ _ cs => textsL cs

/-- All text-leaf strings of a node sequence, in document order. -/
def textsL : NodeList → List String
  | .nil => []
  | .cons n rest => textsN n ++ textsL rest

end

/-- BeautifulSoup `node.get_text("", strip=False)`: concatenation of all
descendant text leaves. -/
def getTextRaw (n : Node) : String := String.join (textsN n)

/-- BeautifulSoup `node.get_text(" ", strip=True)`: the stripped nonempty
text leaves joined by single spaces. -/
def getTextSepStrip (n : Node) : String :=
  String.intercalate " " (((textsN n).map pyStrip).filter (fun s => s ≠ ""))

/-- BeautifulSoup `Tag.string`: the single text child, read through
single-element chains of tags. -/
def nodeString : Node → Option String
  | .elem _ _ (.cons (.text s) .nil) => some s
  | .elem _ _ (.cons (.elem t a cs) .nil) => nodeString (.elem t a cs)
  | _ => none

/-! ## chatgpt_format_handler.py — the _HTML2MD engine -/

/-- The `_list_stack` of `_HTML2MD`: one `(kind, counter)` entry per open
list element, top of stack at the end (mirroring the Python list). -/
abbrev LStack := List (String × Nat)

/-- _HTML2MD._escape: backslash-escape `\`, `*` and `_` in a text leaf
(sequential `str.replace` calls, innermost first as in the source). -/
def escapeMd (s : String) : String :=
  replChar '_' "\\_" (replChar '*' "\\*" (replChar '\\' "\\\\" s))

/-- _HTML2MD._current_list_marker: read the top of the list stack; for an
ordered list also increment its counter in place.  Returns the
`(marker, index)` pair and the updated stack. -/
def currentListMarker (st : LStack) : (String × Nat) × LStack :=
  match st.getLast? with
  | none => (("*", 0), st)
  | some (kind, idx) =>
    if kind == "ul" then (("*", idx), st)
    else ((toString (idx + 1) ++ ".", idx + 1), st.dropLast ++ [(kind, idx + 1)])

/-- Heading level `int(name[1])` for `h1`–`h6`. -/
def headingLevel (name : String) : Nat :=
  if name == "h1" then 1 else if name == "h2" then 2 else if name == "h3" then 3
  else if name == "h4" then 4 else if name == "h5" then 5 else 6

/-- One Markdown table row `| c1 | c2 | ... |`. -/
def mdRow (r : List String) : String := "| " ++ String.intercalate " | " r ++ " |"

/-- _HTML2MD._table_to_md final assembly from the extracted cell texts:
first row as header, a `---` separator per header column, remaining rows. -/
def tableAssemble (rows : List (List String)) : String :=
  match rows with
  | [] => ""
  | r0 :: rest =>
    String.intercalate "\n"
      [mdRow r0, mdRow (r0.map (fun _ => "---")),
       String.intercalate "\n" (rest.map mdRow)]

/-- _HTML2MD._pre_to_md: fenced code block.  The language tag is the first
descendant `div`'s `.string`, stripped, accepted only when nonempty, at most
20 characters and without a space; the payload is the full text of the first
descendant `code` element (or of the `pre` itself), with `\r\n` normalised to
`\n` and leading/trailing newline characters stripped. -/
def preToMd (pre : Node) : String :=
  let lang :=
    match findNodeL (fun m => tagOf m == "div") (childrenOf pre) with
    | some d =>
      match nodeString d with
      | some s0 =>
        if s0 ≠ "" then
          let txt := pyStrip s0
          if 0 < txt.length && txt.length ≤ 20 && !(strContains txt " ") then txt
          else ""
        else ""
      | none => ""
    | none => ""
  let codeTag := (findNodeL (fun m => tagOf m == "code") (childrenOf pre)).getD pre
  let ct := pyStripSet "\n" (replCRLF (getTextRaw codeTag))
  "\n```" ++ lang ++ "\n" ++ ct ++ "\n```\n\n"

mutual

/-- _HTML2MD._node_to_md, with the mutable `_list_stack` threaded explicitly
and a structural fuel argument (first position) so the definition computes;
with fuel exhausted the result is the empty string.  The dispatch follows the
source order: text leaf, `p`, `br`, headings, `hr`, `blockquote`, `ul`/`ol`,
`li`, `table`, `pre`, `strong`, `em`, `del`, `a`, `sup`, inline `code`,
transparent fallthrough. -/
def nodeToMdF : Nat → Node → LStack → String × LStack
  | 0, _, st => ("", st)
  | f + 1, .text s, st => (escapeMd s, st)
  | f + 1, .elem tag attrs cs, st =>
    let name := pyLower tag
    if name == "p" then
      let r := nodesToMdF f cs st
      (r.1 ++ "\n\n", r.2)
    else if name == "br" then ("  \n", st)
    else if name == "h1" || name == "h2" || name == "h3" ||
        name == "h4" || name == "h5" || name == "h6" then
      let r := nodesToMdF f cs st
      (String.mk (List.replicate (headingLevel name) '#') ++ " " ++
        pyStrip r.1 ++ "\n\n", r.2)
    else if name == "hr" then ("\n---\n\n", st)
    else if name == "blockquote" then
      let r := nodesToMdF f cs st
      (String.intercalate "\n"
        ((pySplitlines (pyStrip r.1)).map (fun l => "> " ++ l)) ++ "\n\n", r.2)
    else if name == "ul" || name == "ol" then
      let r := nodesToMdF f cs (st ++ [(name, 0)])
      (r.1, r.2.dropLast)
    else if name == "li" then
      let m := currentListMarker st
      let r := nodesToMdF f cs m.2
      (m.1.1 ++ " " ++ replChar '\n' "\n   " (pyStrip r.1) ++ "\n", r.2)
    else if name == "table" then
      let trs := findAllNodes (fun m => tagOf m == "tr") cs
      let r := tableRowsF f trs st
      (tableAssemble r.1 ++ "\n\n", r.2)
    else if name == "pre" then (preToMd (.elem tag attrs cs), st)
    else if name == "strong" then
      let r := nodesToMdF f cs st
      ("**" ++ pyStrip r.1 ++ "**", r.2)
    else if name == "em" then
      let r := nodesToMdF f cs st
      ("*" ++ pyStrip r.1 ++ "*", r.2)
    else if name == "del" then
      let r := nodesToMdF f cs st
      ("~~" ++ pyStrip r.1 ++ "~~", r.2)
    else if name == "a" then
      let r := nodesToMdF f cs st
      ("[" ++ pyStrip r.1 ++ "](" ++ attrGetD (.elem tag attrs cs) "href" "#" ++ ")",
        r.2)
    else if name == "sup" then
      let r := nodesToMdF f cs st
      ("^" ++ pyStrip r.1, r.2)
    else if name == "code" then
      let r := nodesToMdF f cs st
      ("`" ++ pyStrip r.1 ++ "`", r.2)
    else nodesToMdF f cs st

/-- _HTML2MD._children_md: render a node sequence in order, threading the
list stack left to right. -/
def nodesToMdF : Nat → NodeList → LStack → String × LStack
  | 0, _, st => ("", st)
  | _ + 1, .nil, st => ("", st)
  | f + 1, .cons n rest, st =>
    let r1 := nodeToMdF f n st
    let r2 := nodesToMdF f rest r1.2
    (r1.1 ++ r2.1, r2.2)

/-- The row loop of _HTML2MD._table_to_md: for each `tr` collect the cell
texts, threading the list stack. -/
def tableRowsF : Nat → List Node → LStack → List (List String) × LStack
  | 0, _, st => ([], st)
  | _ + 1, [], st => ([], st)
  | f + 1, tr :: rest, st =>
    let cells := findAllNodes (fun m => tagOf m == "th" || tagOf m == "td")
      (childrenOf tr)
    let r1 := tableCellsF f cells st
    let r2 := tableRowsF f rest r1.2
    (r1.1 :: r2.1, r2.2)

/-- The cell loop of _HTML2MD._table_to_md: `_children_md(c).strip()` per
cell, threading the list stack. -/
def tableCellsF : Nat → List Node → LStack → List String × LStack
  | 0, _, st => ([], st)
  | _ + 1, [], st => ([], st)
  | f + 1, c :: rest, st =>
    let r1 := nodesToMdF f (childrenOf c) st
    let r2 := tableCellsF f rest r1.2
    (pyStrip r1.1 :: r2.1, r2.2)

end

/-- Fuel budget for rendering a node sequence: generous quadratic bound on
the recursion depth of the engine. -/
def listFuel (cs : NodeList) : Nat := (sizeL cs + 2) * (sizeL cs + 2)

/-- _HTML2MD.convert on the instance's current list stack: render the root's
children, collapse runs of three or more newlines to two, and strip the
result.  Returns the rendered string and the instance's stack afterwards. -/
def convertSt (cs : NodeList) (st : LStack) : String × LStack :=
  let r := nodesToMdF (listFuel cs) cs st
  (pyStrip (collapseNl r.1), r.2)

/-- A fuelled single-node rendering entry (used to state engine-level
properties): render one node on a given list stack with adequate fuel. -/
def nodeToMd (n : Node) (st : LStack) : String × LStack :=
  nodeToMdF ((sizeN n + 2) * (sizeN n + 2)) n st

/-! ## chatgpt_format_handler.py — ChatGPTFormatHandler extraction -/

/-- A canonical message (the `\x7b"role": ..., "content": ...\x7d` dicts the
HTML extractor produces: both fields are strings). -/
structure Msg where
  role : String
  content : String
  deriving Repr, DecidableEq

/-- Marker-attribute test: `find_all(attrs=\x7b"data-message-author-role": True\x7d)`. -/
def hasRoleAttr (n : Node) : Bool := (attrLookup n "data-message-author-role").isSome

/-- Test for `find(class_="markdown")`: the multi-valued `class` attribute
contains the class `markdown`. -/
def isMarkdownDiv (n : Node) : Bool :=
  match attrLookup n "class" with
  | some v => (splitWs v).contains "markdown"
  | none => false

/-- The block-structural tags triggering full Markdown conversion of a user
message: `find(["pre", "code", "table", "blockquote", "ul", "ol"])`. -/
def hasBlockTag (n : Node) : Bool :=
  ["pre", "code", "table", "blockquote", "ul", "ol"].contains (tagOf n)

/-- Role normalisation of ChatGPTFormatHandler._extract_messages:
`role_raw = n["data-message-author-role"].lower()` and
`role = "assistant" if role_raw == "assistant" else "user"`. -/
def roleOfElem (n : Node) : String :=
  if pyLower ((attrLookup n "data-message-author-role").getD "") == "assistant"
  then "assistant" else "user"

/-- Content extraction for one role-marked element, threading the shared
`_HTML2MD` instance's list stack: use the dedicated `markdown` container when
present, else convert the whole element when it has a block-structural
descendant, else take its whitespace-collapsed visible text. -/
def contentOfElem (n : Node) (st : LStack) : String × LStack :=
  match findNodeL isMarkdownDiv (childrenOf n) with
  | some c =>
    let r := convertSt (childrenOf c) st
    (pyStrip r.1, r.2)
  | none =>
    if (findNodeL hasBlockTag (childrenOf n)).isSome then
      let r := convertSt (childrenOf n) st
      (pyStrip r.1, r.2)
    else (getTextSepStrip n, st)

/-- The message loop of ChatGPTFormatHandler._extract_messages over the
role-marked elements, threading the shared engine's list stack; elements with
empty extracted content are dropped. -/
def extractGo : List Node → LStack → List Msg
  | [], _ => []
  | n :: rest, st =>
    let role := roleOfElem n
    let r := contentOfElem n st
    let tail := extractGo rest r.2
    if r.1 == "" then tail else ⟨role, r.1⟩ :: tail

/-- ChatGPTFormatHandler._extract_messages on a parsed document forest. -/
def extractMessages (doc : NodeList) : List Msg :=
  extractGo (findAllNodes hasRoleAttr doc) []

/-- ChatGPTFormatHandler.to_workbench: `\x7b"messages": extracted\x7d`,
modelled as the message list. -/
def chatgpt_to_workbench (doc : NodeList) : List Msg := extractMessages doc

/-! ## chat_format_base.py — the delimiter-scheme renderer -/

/-- ChatFormatHandler._format_message of `chat_format_base.py`
(delimiter scheme `::: role ... :::`); falsy content yields nothing. -/
def formatMessageBase (role content : String) : String :=
  if content == "" then ""
  else "::: " ++ role ++ "\n" ++ pyStrip content ++ "\n:::\n\n"

/-- ChatFormatHandler._format_messages of `chat_format_base.py`:
concatenation of the blocks plus a trailing newline (no rstrip). -/
def formatMessagesBase (msgs : List Msg) : String :=
  String.join (msgs.map (fun m => formatMessageBase m.role m.content)) ++ "\n"

/-- ChatGPTFormatHandler.to_markdown on a parsed document forest. -/
def chatgpt_to_markdown (doc : NodeList) : String :=
  mdStructure "ChatGPT-web" ++ formatMessagesBase (extractMessages doc)

/-! ## Spec-side comparison definitions -/

/-- Modelled from the spec (section 5 / claim C9): per-message extraction
with a freshly initialised empty list stack for every convert call — the
stateless-across-calls reading of the spec.  Compared against the stateful
`extractMessages` from the source. -/
def msgOfElemPure (n : Node) : Option Msg :=
  let content := (contentOfElem n []).1
  if content == "" then none else some ⟨roleOfElem n, content⟩

/-- Modelled from the spec: the extractor as a pure per-element map over the
role-marked elements. -/
def extractMessagesPure (doc : NodeList) : List Msg :=
  (findAllNodes hasRoleAttr doc).filterMap msgOfElemPure

/-! ## Auxiliary definitions for statements -/

/-- Flatten a `NodeList` back to a plain list (for stating facts about
direct children). -/
def toListNL : NodeList → List Node
  | .nil => []
  | .cons n rest => n :: toListNL rest

/-- The `li` element with a single text child (for list-numbering laws). -/
def liOf (w : String) : Node := .elem "li" [] (nl [.text w])

/-- A sequence of simple `li` elements. -/
def lisOf : List String → NodeList
  | [] => .nil
  | w :: ws => .cons (liOf w) (lisOf ws)

/-- How the engine renders the body of a simple `li`: escaped, stripped, with
embedded newlines re-indented by three spaces. -/
def liRender (w : String) : String := replChar '\n' "\n   " (pyStrip (escapeMd w))

/-- Expected rendering of a run of simple `li` items in an ordered list whose
counter currently reads `k`: markers `k+1.`, `k+2.`, ... each followed by a
space, the rendered item and a newline. -/
def olBodyFrom (k : Nat) : List String → String
  | [] => ""
  | w :: ws =>
    (toString (k + 1) ++ "." ++ " " ++ liRender w ++ "\n") ++ olBodyFrom (k + 1) ws

/-- The language-label acceptance test of `_pre_to_md`, applied to the
stripped label: nonempty, at most 20 characters, no space. -/
def langAccept (t : String) : Bool :=
  0 < t.length && t.length ≤ 20 && !(strContains t " ")

/-- The error kinds a handler body (as opposed to detection/dispatch) can
raise: the dynamic-access exceptions, never the two `ValueError`s. -/
def dynErr (e : ConvErr) : Prop :=
  e = .typeError ∨ e = .keyError ∨ e = .attributeError

/-! ## Concrete inputs used by the claim theorems -/

/-- An HTML chat-export string that also contains the substring `input`. -/
def c1Str : String := "<article data-message-author-role=\"user\">input</article>"

/-- An HTML chat-export string containing neither `input` nor `messages`. -/
def c8Str : String := "<article data-message-author-role=\"user\"><div>hello</div></article>"

/-- The canonical flat-list example input. -/
def c2Json : Json :=
  .jobj [("messages", .jarr [.jobj [("role", .jstr "user"), ("content", .jstr "Hi")]])]

/-- The Markdown document the converter actually produces for `c2Json`. -/
def c2Md : String := mdStructure "unknown" ++ "**user**: Hi\n"

/-- A flat-list input with one empty-content message. -/
def c4aJson : Json :=
  .jobj [("messages", .jarr [.jobj [("role", .jstr "user"), ("content", .jstr "")]])]

/-- A flat-list input with one whitespace-only-content message. -/
def c4bJson : Json :=
  .jobj [("messages", .jarr [.jobj [("role", .jstr "user"), ("content", .jstr " ")]])]

/-- A flat-list input whose message content ends in dashes. -/
def c10Json : Json :=
  .jobj [("messages", .jarr [.jobj [("role", .jstr "user"), ("content", .jstr "abc---")]])]

/-- The nested-list example `<ul><li>a<ol><li>x</li><li>y</li></ol></li></ul>`. -/
def ulEx : Node :=
  .elem "ul" [] (nl [.elem "li" [] (nl [.text "a",
    .elem "ol" [] (nl [.elem "li" [] (nl [.text "x"]),
                       .elem "li" [] (nl [.text "y"])])])])

/-- An ordered list whose first direct `li` child contains a nested,
non-direct `li`: `<ol><li>A<li>C</li></li><li>B</li></ol>`. -/
def olCexA : Node :=
  .elem "ol" [] (nl [.elem "li" [] (nl [.text "A", .elem "li" [] (nl [.text "C"])]),
                     .elem "li" [] (nl [.text "B"])])

/-- An ordered list whose first `li` is wrapped in a `div` and therefore not
a direct child: `<ol><div><li>R</li></div><li>first</li></ol>`. -/
def olCexB : Node :=
  .elem "ol" [] (nl [.elem "div" [] (nl [.elem "li" [] (nl [.text "R"])]),
                     .elem "li" [] (nl [.text "first"])])

/-- The children of the example `pre` element:
`<div>python</div><code>print(1)</code>`. -/
def preExChildren : NodeList :=
  nl [.elem "div" [] (nl [.text "python"]),
      .elem "code" [] (nl [.text "print(1)"])]

/-- The assistant code-block example
`<div data-message-author-role="assistant"><pre><div>python</div><code>print(1)</code></pre></div>`. -/
def preEx : Node :=
  .elem "div" [("data-message-author-role", "assistant")]
    (nl [.elem "pre" [] preExChildren])

/-- A `pre` whose only `div` is nested inside a `span` and carries the label
` py ` (spaces around it): `<pre><span><div> py </div></span><code>x</code></pre>`. -/
def preCex : Node :=
  .elem "pre" [] (nl [.elem "span" [] (nl [.elem "div" [] (nl [.text " py "])]),
                      .elem "code" [] (nl [.text "x"])])

/-- A role-marked element whose raw role label is `ASSISTANT` (upper case). -/
def roleCex : Node :=
  .elem "div" [("data-message-author-role", "ASSISTANT")] (nl [.text "hi"])

/-! ## Helper lemmas -/

/-- The in-place counter update of `_current_list_marker` never changes the
stack length. -/
lemma currentListMarker_len (st : LStack) : ((currentListMarker st).2).length = st.length := by
  unfold currentListMarker
  cases h : st.getLast? with
  | none => rfl
  | some kv =>
    obtain ⟨kind, idx⟩ := kv
    have hne : st ≠ [] := by intro h0; rw [h0] at h; simp at h
    have hpos : 0 < st.length := List.length_pos.mpr hne
    by_cases hk : kind == "ul"
    · simp [hk]
    · simp [hk, List.length_dropLast]
      omega

/-- Stack-length preservation for a single element dispatch, given it for the
children renderer and the table-row renderer at the next lower fuel. -/
lemma nodeToMdF_elem_len (f : Nat) (tag : String) (attrs : List (String × String))
    (cs : NodeList) (st : LStack)
    (ihL : ∀ l st, ((nodesToMdF f l st).2).length = st.length)
    (ihR : ∀ trs st, ((tableRowsF f trs st).2).length = st.length) :
    ((nodeToMdF (f + 1) (.elem tag attrs cs) st).2).length = st.length := by
  by_cases e1 : pyLower tag = "p"
  · simp [nodeToMdF, e1, ihL]
  by_cases e2 : pyLower tag = "br"
  · simp [nodeToMdF, e1, e2]
  by_cases e3 : pyLower tag = "h1"
  · simp [nodeToMdF, e1, e2, e3, ihL]
  by_cases e4 : pyLower tag = "h2"
  · simp [nodeToMdF, e1, e2, e3, e4, ihL]
  by_cases e5 : pyLower tag = "h3"
  · simp [nodeToMdF, e1, e2, e3, e4, e5, ihL]
  by_cases e6 : pyLower tag = "h4"
  · simp [nodeToMdF, e1, e2, e3, e4, e5, e6, ihL]
  by_cases e7 : pyLower tag = "h5"
  · simp [nodeToMdF, e1, e2, e3, e4, e5, e6, e7, ihL]
  by_cases e8 : pyLower tag = "h6"
  · simp [nodeToMdF, e1, e2, e3, e4, e5, e6, e7, e8, ihL]
  by_cases e9 : pyLower tag = "hr"
  · simp [nodeToMdF, e1, e2, e3, e4, e5, e6, e7, e8, e9]
  by_cases e10 : pyLower tag = "blockquote"
  · simp [nodeToMdF, e1, e2, e3, e4, e5, e6, e7, e8, e9, e10, ihL]
  by_cases e11 : pyLower tag = "ul"
  · simp [nodeToMdF, e1, e2, e3, e4, e5, e6, e7, e8, e9, e10, e11, ihL,
      List.length_dropLast, List.length_append]
  by_cases e12 : pyLower tag = "ol"
  · simp [nodeToMdF, e1, e2, e3, e4, e5, e6, e7, e8, e9, e10, e11, e12, ihL,
      List.length_dropLast, List.length_append]
  by_cases e13 : pyLower tag = "li"
  · simp [nodeToMdF, e1, e2, e3, e4, e5, e6, e7, e8, e9, e10, e11, e12, e13, ihL,
      currentListMarker_len]
  by_cases e14 : pyLower tag = "table"
  · simp [nodeToMdF, e1, e2, e3, e4, e5, e6, e7, e8, e9, e10, e11, e12, e13, e14, ihR]
  by_cases e15 : pyLower tag = "pre"
  · simp [nodeToMdF, e1, e2, e3, e4, e5, e6, e7, e8, e9, e10, e11, e12, e13, e14, e15]
  by_cases e16 : pyLower tag = "strong"
  · simp [nodeToMdF, e1, e2, e3, e4, e5, e6, e7, e8, e9, e10, e11, e12, e13, e14, e15,
      e16, ihL]
  by_cases e17 : pyLower tag = "em"
  · simp [nodeToMdF, e1, e2, e3, e4, e5, e6, e7, e8, e9, e10, e11, e12, e13, e14, e15,
      e16, e17, ihL]
  by_cases e18 : pyLower tag = "del"
  · simp [nodeToMdF, e1, e2, e3, e4, e5, e6, e7, e8, e9, e10, e11, e12, e13, e14, e15,
      e16, e17, e18, ihL]
  by_cases e19 : pyLower tag = "a"
  · simp [nodeToMdF, e1, e2, e3, e4, e5, e6, e7, e8, e9, e10, e11, e12, e13, e14, e15,
      e16, e17, e18, e19, ihL]
  by_cases e20 : pyLower tag = "sup"
  · simp [nodeToMdF, e1, e2, e3, e4, e5, e6, e7, e8, e9, e10, e11, e12, e13, e14, e15,
      e16, e17, e18, e19, e20, ihL]
  by_cases e21 : pyLower tag = "code"
  · simp [nodeToMdF, e1, e2, e3, e4, e5, e6, e7, e8, e9, e10, e11, e12, e13, e14, e15,
      e16, e17, e18, e19, e20, e21, ihL]
  · simp [nodeToMdF, e1, e2, e3, e4, e5, e6, e7, e8, e9, e10, e11, e12, e13, e14, e15,
      e16, e17, e18, e19, e20, e21, ihL]

/-- Every engine function preserves the length of the list stack: each
`ul`/`ol` pushes one context and pops it again after its children render. -/
lemma stackLenAll : ∀ f : Nat,
    (∀ n st, ((nodeToMdF f n st).2).length = st.length) ∧
    (∀ l st, ((nodesToMdF f l st).2).length = st.length) ∧
    (∀ trs st, ((tableRowsF f trs st).2).length = st.length) ∧
    (∀ cs st, ((tableCellsF f cs st).2).length = st.length) := by
  intro f
  induction f with
  | zero => exact ⟨fun n st => rfl, fun l st => rfl, fun trs st => rfl, fun cs st => rfl⟩
  | succ f ih =>
    obtain ⟨ihN, ihL, ihR, ihC⟩ := ih
    refine ⟨?_, ?_, ?_, ?_⟩
    · intro n st
      cases n with
      | text s => rfl
      | elem tag attrs cs => exact nodeToMdF_elem_len f tag attrs cs st ihL ihR
    · intro l st
      cases l with
      | nil => rfl
      | cons n rest => simp only [nodesToMdF]; rw [ihL, ihN]
    · intro trs st
      cases trs with
      | nil => rfl
      | cons tr rest => simp only [tableRowsF]; rw [ihR, ihC]
    · intro cs st
      cases cs with
      | nil => rfl
      | cons c rest => simp only [tableCellsF]; rw [ihC, ihL]

/-- A convert call entered on the empty stack leaves the stack empty. -/
lemma convertSt_stack (cs : NodeList) : (convertSt cs []).2 = [] := by
  have h := (stackLenAll (listFuel cs)).2.1 cs []
  exact List.length_eq_zero.mp (by simpa using h)

/-- Content extraction entered on the empty stack leaves the stack empty. -/
lemma contentOfElem_stack (n : Node) : (contentOfElem n []).2 = [] := by
  unfold contentOfElem
  cases h : findNodeL isMarkdownDiv (childrenOf n) with
  | some c => simpa using convertSt_stack (childrenOf c)
  | none =>
    by_cases hb : (findNodeL hasBlockTag (childrenOf n)).isSome
    · simpa [hb] using convertSt_stack (childrenOf n)
    · simp [hb]

/-- The stateful message loop started on the empty stack agrees with the
pure per-element extraction. -/
lemma extractGo_pure (l : List Node) : extractGo l [] = l.filterMap msgOfElemPure := by
  induction l with
  | nil => rfl
  | cons n rest ih =>
    simp only [extractGo, List.filterMap_cons]
    rw [contentOfElem_stack n]
    cases h : ((contentOfElem n []).1 == "") with
    | true => simp [msgOfElemPure, h, ih]
    | false => simp [msgOfElemPure, h, ih]

/-- The extractor is stateless across convert calls: the shared-instance
extraction equals the freshly-initialised per-element extraction. -/
lemma extractMessages_eq_pure (doc : NodeList) :
    extractMessages doc = extractMessagesPure doc := by
  unfold extractMessages extractMessagesPure
  exact extractGo_pure _

/-! ## Claim theorems -/

/-- C1 (corrected): `detect_format` registers only the Playground and
Workbench handlers and probes them in that order; the HTML extractor predicate
is never consulted.  A string satisfying the HTML predicate is routed to the
Playground handler whenever it contains the substring `input`, and otherwise
rejected when it also lacks the substring `messages`. -/
theorem c1_detection_order :
    (∀ j : Json, detect_format j = .ok .playground ↔ playground_can_handle j = .ok true) ∧
    (∀ j : Json, detect_format j = .ok .workbench ↔
      (playground_can_handle j = .ok false ∧ workbench_can_handle j = .ok true)) ∧
    (∀ s : String, chatgpt_can_handle (.jstr s) = true → strContains s "input" = true →
      detect_format (.jstr s) = .ok .playground) ∧
    (∀ s : String, chatgpt_can_handle (.jstr s) = true → strContains s "input" = false →
      strContains s "messages" = false →
      detect_format (.jstr s) = .error .unsupportedFormat) := by
  refine ⟨?_, ?_, ?_, ?_⟩
  · intro j
    unfold detect_format
    cases h1 : playground_can_handle j with
    | error e => simp [h1]
    | ok b =>
      cases b with
      | true => simp [h1]
      | false =>
        cases h2 : workbench_can_handle j with
        | error e => simp [h1, h2]
        | ok b2 => cases b2 <;> simp [h1, h2]
  · intro j
    unfold detect_format
    cases h1 : playground_can_handle j with
    | error e => simp [h1]
    | ok b =>
      cases b with
      | true => simp [h1]
      | false =>
        cases h2 : workbench_can_handle j with
        | error e => simp [h1, h2]
        | ok b2 => cases b2 <;> simp [h1, h2]
  · intro s _ hin
    simp [detect_format, playground_can_handle, pyIn, hin]
  · intro s _ hin hmsg
    simp [detect_format, playground_can_handle, workbench_can_handle, pyIn, hin, hmsg]

/-- C1 counterexample: `c1Str` satisfies the HTML predicate, yet detection
selects the Playground (`input`-shape) extractor, not the HTML extractor. -/
theorem c1_detection_order_cex :
    chatgpt_can_handle (.jstr c1Str) = true ∧
    detect_format (.jstr c1Str) = .ok .playground := ⟨rfl, rfl⟩

/-- C1 witness: the amended routing law evaluated at concrete inputs. -/
theorem c1_detection_order_witness :
    detect_format c2Json = .ok .workbench ∧
    detect_format (.jstr c8Str) = .error .unsupportedFormat :=
  ⟨(c1_detection_order.2.1 c2Json).mpr ⟨rfl, rfl⟩,
   c1_detection_order.2.2.2 c8Str rfl rfl rfl⟩

/-- C3 (confirmed): on a flat-list input (has `messages`, no `input` key),
`convert(x, "workbench")` returns the input value itself, so its `messages`
array is structurally equal to the input's. -/
theorem c3_workbench_roundtrip (kvs : List (String × Json))
    (h1 : kvs.any (fun kv => kv.1 == "input") = false)
    (h2 : kvs.any (fun kv => kv.1 == "messages") = true) :
    convert_format (.jobj kvs) "workbench" = .ok (.wb (.jobj kvs)) := by
  have hdet : detect_format (.jobj kvs) = .ok .workbench := by
    simp [detect_format, playground_can_handle, workbench_can_handle, pyIn, h1, h2]
  simp [convert_format, hdet, handler_to_workbench, workbench_to_workbench]

/-- C3 witness: the spec's concrete scenario. -/
theorem c3_workbench_roundtrip_witness :
    convert_format c2Json "workbench" = .ok (.wb c2Json) :=
  c3_workbench_roundtrip _ rfl rfl

/-- C10 (confirmed): the final-separator removal is an rstrip over the
character set consisting of dash and newline, and for a conversation whose
last message content ends in dashes those dashes are removed from the
rendered Markdown. -/
theorem c10_rstrip_separator :
    (∀ s : String, pyRstripSet "---\n\n" s =
      String.mk (dropRightWhile (fun c => c == '-' || c == '\n') s.toList)) ∧
    pyRstripSet "---\n\n" "**user**: abc---\n\n---\n\n" = "**user**: abc" ∧
    convert_format c10Json "markdown" =
      .ok (.md (mdStructure "unknown" ++ "**user**: abc\n")) ∧
    strContains (mdStructure "unknown" ++ "**user**: abc\n") "abc---" = false := by
  refine ⟨?_, rfl, rfl, rfl⟩
  intro s
  unfold pyRstripSet
  have hp : (fun c => ("---\n\n".toList.contains c)) = (fun c => c == '-' || c == '\n') := by
    funext c
    show ((['-', '-', '-', '\n', '\n'] : List Char).contains c) = (c == '-' || c == '\n')
    cases h1 : c == '-' <;> cases h2 : c == '\n' <;>
      simp [List.contains, List.elem, h1, h2]
  rw [hp]

/-- C2 (corrected): `convert(·, "markdown")` renders each truthy message with
the dash-separator scheme of `chatbot_convert.py`; the delimiter scheme
`::: role ... :::` exists only in the `chat_format_base.py` renderer, which
`convert_format` never reaches.  For the concrete input the rendered document
contains the dash block and not the delimiter block. -/
theorem c2_markdown_blocks :
    (∀ role content : Json, pyTruthy content = true →
      formatMessageCc role content =
        "**" ++ pyStr role ++ "**: " ++ pyStr content ++ "\n\n---\n\n") ∧
    (∀ role content : String, content ≠ "" →
      formatMessageBase role content =
        "::: " ++ role ++ "\n" ++ pyStrip content ++ "\n:::\n\n") ∧
    convert_format c2Json "markdown" = .ok (.md c2Md) ∧
    strContains c2Md "**user**: Hi" = true ∧
    strContains c2Md "::: user\nHi\n:::" = false := by
  refine ⟨?_, ?_, rfl, rfl, rfl⟩
  · intro role content h
    simp [formatMessageCc, h]
  · intro role content h
    simp [formatMessageBase, h]

/-- C2 counterexample: the Markdown output for the spec's concrete input does
not contain the delimiter block `::: user\nHi\n:::`. -/
theorem c2_markdown_blocks_cex :
    convert_format c2Json "markdown" = .ok (.md c2Md) ∧
    strContains c2Md "::: user\nHi\n:::" = false := ⟨rfl, rfl⟩

/-- C2 witness: the dash and delimiter renderers evaluated concretely. -/
theorem c2_markdown_blocks_witness :
    formatMessageCc (.jstr "user") (.jstr "Hi") =
      "**" ++ pyStr (.jstr "user") ++ "**: " ++ pyStr (.jstr "Hi") ++ "\n\n---\n\n" ∧
    formatMessageBase "user" "Hi" = "::: " ++ "user" ++ "\n" ++ pyStrip "Hi" ++ "\n:::\n\n" :=
  ⟨c2_markdown_blocks.1 (.jstr "user") (.jstr "Hi") rfl,
   c2_markdown_blocks.2.1 "user" "Hi" (by decide)⟩

/-- C5 (corrected): the HTML extractor lowercases the raw role label before
comparing, so the emitted role is `assistant` exactly when the lowercased raw
label equals `assistant` (not when the raw label is exactly `assistant`);
every emitted role is `assistant` or `user`. -/
theorem c5_role_normalisation :
    (∀ n : Node, roleOfElem n = "assistant" ↔
      pyLower ((attrLookup n "data-message-author-role").getD "") = "assistant") ∧
    (∀ n : Node, roleOfElem n = "user" ↔
      pyLower ((attrLookup n "data-message-author-role").getD "") ≠ "assistant") ∧
    (∀ doc : NodeList, ∀ m ∈ extractMessages doc,
      m.role = "assistant" ∨ m.role = "user") := by
  refine ⟨?_, ?_, ?_⟩
  · intro n
    unfold roleOfElem
    split_ifs with h
    · simp [eq_of_beq h]
    · simp only [beq_iff_eq] at h
      simp [h]
  · intro n
    unfold roleOfElem
    split_ifs with h
    · simp [eq_of_beq h]
    · simp only [beq_iff_eq] at h
      simp [h]
  · intro doc m hm
    rw [extractMessages_eq_pure] at hm
    unfold extractMessagesPure at hm
    obtain ⟨n, _, hsome⟩ := List.mem_filterMap.mp hm
    by_cases h : ((contentOfElem n []).1 == "")
    · simp [msgOfElemPure, h] at hsome
    · simp [msgOfElemPure, h] at hsome
      subst hsome
      unfold roleOfElem
      split_ifs <;> simp

/-- C5 counterexample: the raw role label `ASSISTANT` is not exactly the
string `assistant`, yet the extractor emits the role `assistant`. -/
theorem c5_role_normalisation_cex :
    attrLookup roleCex "data-message-author-role" = some "ASSISTANT" ∧
    ("ASSISTANT" : String) ≠ "assistant" ∧
    extractMessages (nl [roleCex]) = [⟨"assistant", "hi"⟩] :=
  ⟨rfl, by decide, rfl⟩

/-- C5 witness: the role dichotomy applied to a concretely extracted message. -/
theorem c5_role_normalisation_witness :
    (Msg.mk "assistant" "hi").role = "assistant" ∨ (Msg.mk "assistant" "hi").role = "user" :=
  c5_role_normalisation.2.2 (nl [roleCex]) ⟨"assistant", "hi"⟩
    (by rw [show extractMessages (nl [roleCex]) = [⟨"assistant", "hi"⟩] from rfl]; simp)

/-- C9 (confirmed): the engine's list stack is balanced — every rendering
function preserves the stack length (each `ul`/`ol` pushes one context and
pops it after its children), a convert call entered on the empty stack ends
on the empty stack, and the extractor's shared-instance loop is therefore
equivalent to a freshly-initialised per-element conversion (calls are
independent). -/
theorem c9_stack_invariant :
    (∀ f n st, ((nodeToMdF f n st).2).length = st.length) ∧
    (∀ f l st, ((nodesToMdF f l st).2).length = st.length) ∧
    (∀ cs : NodeList, (convertSt cs []).2 = []) ∧
    (∀ doc : NodeList, extractMessages doc = extractMessagesPure doc) :=
  ⟨fun f => (stackLenAll f).1, fun f => (stackLenAll f).2.1,
   convertSt_stack, extractMessages_eq_pure⟩

/-- C4 counterexample: the flat-list workbench pass-through emits the
empty-content message unchanged, and the flat-list markdown path emits a
message whose content is whitespace-only (empty after trimming). -/
theorem c4_empty_drop_cex :
    convert_format c4aJson "workbench" = .ok (.wb c4aJson) ∧
    jindex c4aJson "messages" =
      .ok (.jarr [.jobj [("role", .jstr "user"), ("content", .jstr "")]]) ∧
    convert_format c4bJson "markdown" =
      .ok (.md (mdStructure "unknown" ++ "**user**:  \n")) ∧
    pyStrip " " = "" ∧
    strContains (mdStructure "unknown" ++ "**user**:  \n") "**user**" = true :=
  ⟨rfl, rfl, rfl, rfl, rfl⟩

/-- C4 (corrected): falsy content is dropped by the dash-scheme Markdown
renderer, by the HTML extractor (empty after trimming) and by the Playground
extractor; but the flat-list workbench pass-through returns the input
unchanged, dropping nothing. -/
theorem c4_empty_drop :
    (∀ role content : Json, pyTruthy content = false → formatMessageCc role content = "") ∧
    (∀ doc : NodeList, ∀ m ∈ extractMessages doc, m.content ≠ "") ∧
    (∀ items msgs : List Json, convertToMessages items = .ok msgs →
      ∀ m ∈ msgs, ∃ r t, m = .jobj [("role", .jstr r), ("content", t)] ∧
        pyTruthy t = true) ∧
    (∀ kvs : List (String × Json),
      kvs.any (fun kv => kv.1 == "input") = false →
      kvs.any (fun kv => kv.1 == "messages") = true →
      convert_format (.jobj kvs) "workbench" = .ok (.wb (.jobj kvs))) := by
  refine ⟨?_, ?_, ?_, ?_⟩
  · intro role content h
    simp [formatMessageCc, h]
  · intro doc m hm
    rw [extractMessages_eq_pure] at hm
    unfold extractMessagesPure at hm
    obtain ⟨n, _, hsome⟩ := List.mem_filterMap.mp hm
    by_cases h : ((contentOfElem n []).1 == "")
    · simp [msgOfElemPure, h] at hsome
    · simp [msgOfElemPure, h] at hsome
      subst hsome
      simpa using h
  · intro items
    induction items with
    | nil =>
      intro msgs h m hm
      simp [convertToMessages] at h
      subst h
      simp at hm
    | cons it rest ih =>
      intro msgs h m hm
      simp only [convertToMessages] at h
      cases hrole : pyGetD it "role" .jnull with
      | error e => simp [hrole] at h
      | ok role =>
        cases hcont : pyGetD it "content" (.jarr []) with
        | error e => simp [hrole, hcont] at h
        | ok content =>
          by_cases hu : jsonBeq role (.jstr "user")
          · cases hitems : itemsOf content with
            | error e => simp [hrole, hcont, hu, hitems] at h
            | ok citems =>
              cases htext : firstText "input_text" citems with
              | error e => simp [hrole, hcont, hu, hitems, htext] at h
              | ok text =>
                cases hrest : convertToMessages rest with
                | error e => simp [hrole, hcont, hu, hitems, htext, hrest] at h
                | ok tail =>
                  simp [hrole, hcont, hu, hitems, htext, hrest] at h
                  by_cases ht : pyTruthy text
                  · rw [if_pos ht] at h
                    subst h
                    rcases List.mem_cons.mp hm with hm1 | hm2
                    · exact ⟨"user", text, hm1, ht⟩
                    · exact ih tail hrest m hm2
                  · rw [if_neg ht] at h
                    subst h
                    exact ih tail hrest m hm
          · by_cases ha : jsonBeq role (.jstr "assistant")
            · cases hitems : itemsOf content with
              | error e => simp [hrole, hcont, hu, ha, hitems] at h
              | ok citems =>
                cases htext : firstText "output_text" citems with
                | error e => simp [hrole, hcont, hu, ha, hitems, htext] at h
                | ok text =>
                  cases hrest : convertToMessages rest with
                  | error e => simp [hrole, hcont, hu, ha, hitems, htext, hrest] at h
                  | ok tail =>
                    simp [hrole, hcont, hu, ha, hitems, htext, hrest] at h
                    by_cases ht : pyTruthy text
                    · rw [if_pos ht] at h
                      subst h
                      rcases List.mem_cons.mp hm with hm1 | hm2
                      · exact ⟨"assistant", text, hm1, ht⟩
                      · exact ih tail hrest m hm2
                    · rw [if_neg ht] at h
                      subst h
                      exact ih tail hrest m hm
            · simp [hrole, hcont, hu, ha] at h
              exact ih msgs h m hm
  · intro kvs h1 h2
    have hdet : detect_format (.jobj kvs) = .ok .workbench := by
      simp [detect_format, playground_can_handle, workbench_can_handle, pyIn, h1, h2]
    simp [convert_format, hdet, handler_to_workbench, workbench_to_workbench]

/-- C4 witness: the amended dropping laws evaluated at concrete inputs. -/
theorem c4_empty_drop_witness :
    formatMessageCc (.jstr "user") (.jstr "") = "" ∧
    (Msg.mk "assistant" "hi").content ≠ "" ∧
    convert_format c4aJson "workbench" = .ok (.wb c4aJson) :=
  ⟨c4_empty_drop.1 (.jstr "user") (.jstr "") rfl,
   c4_empty_drop.2.1 (nl [roleCex]) ⟨"assistant", "hi"⟩
     (by rw [show extractMessages (nl [roleCex]) = [⟨"assistant", "hi"⟩] from rfl]; simp),
   c4_empty_drop.2.2.2 _ rfl rfl⟩

/-- Helper: size of a run of simple list items. -/
lemma sizeL_lisOf (ws : List String) : sizeL (lisOf ws) = 2 * ws.length := by
  induction ws with
  | nil => rfl
  | cons w ws ih =>
    simp [lisOf, sizeL, liOf, nl, sizeN, ih]
    omega

/-- Helper: string append with the empty string. -/
lemma strAppendEmpty (s : String) : s ++ "" = s := by
  cases s with
  | mk data => show String.mk (data ++ []) = String.mk data; rw [List.append_nil]

/-- Rendering one simple `li` while the top of the stack is an ordered-list
context with counter `k`: marker `k+1.`, counter bumped to `k+1`. -/
lemma li_eval (g : Nat) (w : String) (st : LStack) (k : Nat) (hg : 3 ≤ g) :
    nodeToMdF g (liOf w) (st ++ [("ol", k)]) =
      ((toString (k + 1) ++ "." ++ " " ++ liRender w ++ "\n"), st ++ [("ol", k + 1)]) := by
  obtain ⟨g1, rfl⟩ : ∃ g1, g = g1 + 1 := ⟨g - 1, by omega⟩
  have hm : currentListMarker (st ++ [("ol", k)]) =
      ((toString (k + 1) ++ ".", k + 1), st ++ [("ol", k + 1)]) := by
    unfold currentListMarker
    rw [List.getLast?_concat]
    simp [List.dropLast_concat]
  have hinner : ∀ σ : LStack, nodesToMdF g1 (nl [.text w]) σ = (escapeMd w, σ) := by
    intro σ
    obtain ⟨g2, rfl⟩ : ∃ g2, g1 = g2 + 1 := ⟨g1 - 1, by omega⟩
    obtain ⟨g3, rfl⟩ : ∃ g3, g2 = g3 + 1 := ⟨g2 - 1, by omega⟩
    simp [nl, nodesToMdF, nodeToMdF, strAppendEmpty]
  have hstep : nodeToMdF (g1 + 1) (.elem "li" [] (nl [.text w])) (st ++ [("ol", k)]) =
      ((currentListMarker (st ++ [("ol", k)])).1.1 ++ " " ++
        replChar '\n' "\n   "
          (pyStrip (nodesToMdF g1 (nl [.text w])
            (currentListMarker (st ++ [("ol", k)])).2).1) ++ "\n",
       (nodesToMdF g1 (nl [.text w]) (currentListMarker (st ++ [("ol", k)])).2).2) := rfl
  unfold liOf
  rw [hstep, hm]
  rw [hinner]
  rfl

/-- Rendering a run of simple `li` items above an ordered-list context with
counter `k` yields markers `k+1.`, `k+2.`, ... and bumps the counter by the
number of items. -/
lemma lis_eval : ∀ (ws : List String) (f k : Nat) (st : LStack), ws.length + 3 ≤ f →
    nodesToMdF f (lisOf ws) (st ++ [("ol", k)]) =
      (olBodyFrom k ws, st ++ [("ol", k + ws.length)]) := by
  intro ws
  induction ws with
  | nil =>
    intro f k st hf
    obtain ⟨g, rfl⟩ : ∃ g, f = g + 1 := ⟨f - 1, by omega⟩
    simp [lisOf, nodesToMdF, olBodyFrom]
  | cons w ws ih =>
    intro f k st hf
    obtain ⟨g, rfl⟩ : ∃ g, f = g + 1 := ⟨f - 1, by omega⟩
    simp only [List.length_cons] at hf
    have h1 := li_eval g w st k (by omega)
    have h2 := ih g (k + 1) st (by omega)
    simp only [lisOf, nodesToMdF]
    rw [h1]
    simp only
    rw [h2]
    have hk : k + 1 + ws.length = k + (ws.length + 1) := by omega
    rw [hk]
    simp [olBodyFrom, List.length_cons]

/-- C6 (corrected): each `ol` pushes a fresh counter, so the first `li`
rendered inside it is numbered 1 regardless of the surrounding list-nesting
stack; but the counter is bumped by `_current_list_marker` for every `li`
rendered while that `ol`'s context is topmost, direct child or not — so
direct `li` children are numbered consecutively only when no other `li` is
rendered between them.  For an `ol` whose children are exclusively simple
`li` items the markers are `1.`, `2.`, ..., and the nested example renders
the outer bullet and the inner `1.`/`2.` items as specified. -/
theorem c6_list_numbering :
    (∀ (st : LStack) (k : Nat),
      currentListMarker (st ++ [("ol", k)]) =
        ((toString (k + 1) ++ ".", k + 1), st ++ [("ol", k + 1)])) ∧
    (∀ (st : LStack) (attrs : List (String × String)) (ws : List String),
      nodeToMd (.elem "ol" attrs (lisOf ws)) st = (olBodyFrom 0 ws, st)) ∧
    convertSt (nl [ulEx]) [] = ("* a1. x\n   2. y", []) ∧
    strContains "* a1. x\n   2. y" "* a" = true ∧
    strContains "* a1. x\n   2. y" "1. x" = true ∧
    strContains "* a1. x\n   2. y" "2. y" = true := by
  refine ⟨?_, ?_, rfl, rfl, rfl, rfl⟩
  · intro st k
    unfold currentListMarker
    rw [List.getLast?_concat]
    simp [List.dropLast_concat]
  intro st attrs ws
  unfold nodeToMd
  have hsz : sizeN (.elem "ol" attrs (lisOf ws)) = 1 + 2 * ws.length := by
    simp [sizeN, sizeL_lisOf]
  have hbig : ws.length + 4 ≤
      (sizeN (.elem "ol" attrs (lisOf ws)) + 2) * (sizeN (.elem "ol" attrs (lisOf ws)) + 2) := by
    rw [hsz]
    have h3 : (1 + 2 * ws.length + 2) * 2 ≤
        (1 + 2 * ws.length + 2) * (1 + 2 * ws.length + 2) :=
      Nat.mul_le_mul_left _ (by omega)
    omega
  obtain ⟨g, hgeq, hgge⟩ :
      ∃ g, (sizeN (.elem "ol" attrs (lisOf ws)) + 2) *
        (sizeN (.elem "ol" attrs (lisOf ws)) + 2) = g + 1 ∧ ws.length + 3 ≤ g :=
    ⟨(sizeN (.elem "ol" attrs (lisOf ws)) + 2) *
        (sizeN (.elem "ol" attrs (lisOf ws)) + 2) - 1, by omega, by omega⟩
  rw [hgeq]
  have hol : nodeToMdF (g + 1) (.elem "ol" attrs (lisOf ws)) st =
      ((nodesToMdF g (lisOf ws) (st ++ [("ol", 0)])).1,
       (nodesToMdF g (lisOf ws) (st ++ [("ol", 0)])).2.dropLast) := rfl
  rw [hol, lis_eval ws g 0 st hgge]
  simp [List.dropLast_concat]

/-- C6 counterexample: non-direct `li` elements bump the shared counter.
In `olCexA` the two direct `li` children of the `ol` render as `1.` and `3.`
(the nested, non-direct `li` consumed `2.`), refuting increment-by-1 per
successive direct child; in `olCexB` the first direct `li` child renders as
`2.`, not `1.` (the `div`-wrapped `li` consumed `1.`). -/
theorem c6_list_numbering_cex :
    (toListNL (childrenOf olCexA)).map tagOf = ["li", "li"] ∧
    convertSt (nl [olCexA]) [] = ("1. A2. C\n3. B", []) ∧
    strContains "1. A2. C\n3. B" "3. B" = true ∧
    strContains "1. A2. C\n3. B" "2. B" = false ∧
    convertSt (nl [olCexB]) [] = ("1. R\n2. first", []) ∧
    strContains "1. R\n2. first" "2. first" = true ∧
    strContains "1. R\n2. first" "1. first" = false :=
  ⟨rfl, rfl, rfl, rfl, rfl, rfl, rfl⟩

/-- Helper: rebuilding a string from its character list. -/
lemma strMkToList (s : String) : String.mk s.toList = s := by
  cases s with
  | mk data => rfl

/-- Helper: `replace("\r\n", "\n")` is the identity on carriage-return-free
character lists. -/
lemma replCRLFList_id : ∀ l : List Char, l.contains '\r' = false →
    replCRLF.replCRLFList l = l := by
  intro l
  induction l with
  | nil => intro _; rfl
  | cons c rest ih =>
    intro h
    simp only [List.contains_cons, Bool.or_eq_false_iff] at h
    obtain ⟨h1, h2⟩ := h
    have hc : c ≠ '\r' := by
      intro hc
      subst hc
      simp at h1
    rw [replCRLF.replCRLFList.eq_def]
    split
    · rename_i rest' heq
      injection heq with h3 _
      exact absurd h3 hc
    · rename_i c' rest' hno heq
      injection heq with e1 e2
      subst e1
      subst e2
      rw [ih h2]
    · rename_i heq
      exact absurd heq (by simp)

/-- Helper: `replace("\r\n", "\n")` is the identity on carriage-return-free
strings. -/
lemma replCRLF_id (w : String) (h : w.toList.contains '\r' = false) :
    replCRLF w = w := by
  unfold replCRLF
  rw [replCRLFList_id w.toList h]
  exact strMkToList w

/-- Helper: the newline-set membership test. -/
lemma nlContains (c : Char) : ("\n".toList.contains c) = (c == '\n') := by
  cases hc : c == '\n' <;> simp [List.contains, List.elem, hc]

/-- Helper: stripping newline characters from both ends is the identity on
strings that start and end with something other than a newline. -/
lemma pyStripSet_nl_id (w : String) (hh : w.toList.head? ≠ some '\n')
    (hl : w.toList.getLast? ≠ some '\n') : pyStripSet "\n" w = w := by
  unfold pyStripSet dropRightWhile
  have h1 : w.toList.dropWhile (fun c => "\n".toList.contains c) = w.toList := by
    cases h : w.toList with
    | nil => rfl
    | cons c rest =>
      have hc : c ≠ '\n' := by
        intro hceq
        apply hh
        rw [h]
        simp [hceq]
      simp [List.dropWhile_cons, nlContains, hc]
  have h2 : w.toList.reverse.dropWhile (fun c => "\n".toList.contains c) =
      w.toList.reverse := by
    cases h : w.toList.reverse with
    | nil => rfl
    | cons c rest =>
      have hlast : w.toList.getLast? = some c := by
        rw [← List.head?_reverse, h]
        rfl
      have hc : c ≠ '\n' := by
        intro hceq
        apply hl
        rw [hlast, hceq]
      simp [List.dropWhile_cons, nlContains, hc]
  rw [h1, h2, List.reverse_reverse]
  exact strMkToList w

/-- C7 (corrected): the fence language tag comes from the first descendant
`div` (found recursively, not necessarily a direct child), and the acceptance
conditions (nonempty, at most 20 characters, no space) are applied to the
stripped direct text, not to the raw text; the code payload is preserved
byte-for-byte except for `\r\n` normalisation and stripping of leading and
trailing newline characters; the concrete assistant example renders exactly
the tagged fence. -/
theorem c7_fenced_code :
    extractMessages (nl [preEx]) = [⟨"assistant", "```python\nprint(1)\n```"⟩] ∧
    (∀ w : String, w.toList.contains '\r' = false →
      w.toList.head? ≠ some '\n' → w.toList.getLast? ≠ some '\n' →
      pyStripSet "\n" (replCRLF w) = w) ∧
    (∀ (a : List (String × String)) (cs : NodeList) (d : Node) (s0 : String),
      findNodeL (fun m => tagOf m == "div") cs = some d →
      nodeString d = some s0 → s0 ≠ "" →
      preToMd (.elem "pre" a cs) =
        "\n```" ++ (if langAccept (pyStrip s0) then pyStrip s0 else "") ++ "\n" ++
          pyStripSet "\n" (replCRLF (getTextRaw
            ((findNodeL (fun m => tagOf m == "code") cs).getD (.elem "pre" a cs)))) ++
          "\n```\n\n") := by
  refine ⟨rfl, ?_, ?_⟩
  · intro w h1 hh hl
    rw [replCRLF_id w h1]
    exact pyStripSet_nl_id w hh hl
  · intro a cs d s0 h1 h2 h3
    unfold preToMd
    simp only [childrenOf, h1, h2, if_pos h3, langAccept]

/-- C7 counterexample: in `preCex` no direct child of the `pre` is a `div`,
and the first descendant `div`'s direct text ` py ` contains spaces; yet the
engine emits the fence language tag `py` (taken from the stripped text of the
recursively found `div`), where the claim predicts no language tag. -/
theorem c7_fenced_code_cex :
    (toListNL (childrenOf preCex)).map tagOf = ["span", "code"] ∧
    strContains " py " " " = true ∧
    preToMd preCex = "\n```py\nx\n```\n\n" ∧
    preToMd preCex ≠ "\n```\nx\n```\n\n" :=
  ⟨rfl, rfl, rfl, by decide⟩

/-- C7 witness: the amended fence rules evaluated at the concrete example. -/
theorem c7_fenced_code_witness :
    pyStripSet "\n" (replCRLF "print(1)") = "print(1)" ∧
    preToMd (.elem "pre" [] preExChildren) =
      "\n```" ++ (if langAccept (pyStrip "python") then pyStrip "python" else "") ++ "\n" ++
        pyStripSet "\n" (replCRLF (getTextRaw
          ((findNodeL (fun m => tagOf m == "code") preExChildren).getD
            (.elem "pre" [] preExChildren)))) ++
        "\n```\n\n" :=
  ⟨c7_fenced_code.2.1 "print(1)" rfl (by decide) (by decide),
   c7_fenced_code.2.2 [] preExChildren (.elem "div" [] (nl [.text "python"])) "python"
     rfl rfl (by decide)⟩

/-- Helper: `pyIn` only raises `TypeError`. -/
lemma pyIn_err (k : String) (j : Json) (e : ConvErr) (h : pyIn k j = .error e) :
    e = .typeError := by
  cases j <;> simp [pyIn] at h <;> exact h.symm

/-- Helper: `pyGetD` errors are dynamic-access exceptions. -/
lemma pyGetD_err (j : Json) (k : String) (d : Json) (e : ConvErr)
    (h : pyGetD j k d = .error e) : dynErr e := by
  cases j <;> simp [pyGetD] at h <;> (subst h; simp [dynErr])

/-- Helper: `jindex` errors are dynamic-access exceptions. -/
lemma jindex_err (j : Json) (k : String) (e : ConvErr)
    (h : jindex j k = .error e) : dynErr e := by
  cases j <;> simp only [jindex] at h
  case jobj kvs =>
    cases hf : kvs.find? (fun kv => kv.1 == k) with
    | some kv => simp only [hf] at h; simp at h
    | none => simp only [hf] at h; simp at h; subst h; simp [dynErr]
  all_goals (simp at h; subst h; simp [dynErr])

/-- Helper: `itemsOf` errors are dynamic-access exceptions. -/
lemma itemsOf_err (j : Json) (e : ConvErr) (h : itemsOf j = .error e) : dynErr e := by
  cases j <;> simp [itemsOf] at h <;> (subst h; simp [dynErr])

/-- Helper: `firstText` errors are dynamic-access exceptions. -/
lemma firstText_err (ty : String) : ∀ (l : List Json) (e : ConvErr),
    firstText ty l = .error e → dynErr e := by
  intro l
  induction l with
  | nil => intro e h; simp [firstText] at h
  | cons it rest ih =>
    intro e h
    simp only [firstText] at h
    cases hg : pyGetD it "type" .jnull with
    | error e2 =>
      simp only [hg] at h
      simp at h
      subst h
      exact pyGetD_err _ _ _ _ hg
    | ok t =>
      simp only [hg] at h
      by_cases hb : jsonBeq t (.jstr ty)
      · simp only [hb, if_true] at h
        exact pyGetD_err _ _ _ _ h
      · simp only [hb, if_false] at h
        exact ih e h

/-- Helper: `convertToMessages` errors are dynamic-access exceptions. -/
lemma convertToMessages_err : ∀ (l : List Json) (e : ConvErr),
    convertToMessages l = .error e → dynErr e := by
  intro l
  induction l with
  | nil => intro e h; simp [convertToMessages] at h
  | cons it rest ih =>
    intro e h
    simp only [convertToMessages] at h
    cases hrole : pyGetD it "role" .jnull with
    | error e2 => simp only [hrole] at h; simp at h; subst h; exact pyGetD_err _ _ _ _ hrole
    | ok role =>
      simp only [hrole] at h
      cases hcont : pyGetD it "content" (.jarr []) with
      | error e2 => simp only [hcont] at h; simp at h; subst h; exact pyGetD_err _ _ _ _ hcont
      | ok content =>
        simp only [hcont] at h
        by_cases hu : jsonBeq role (.jstr "user")
        · simp only [hu, if_true] at h
          cases hitems : itemsOf content with
          | error e2 => simp only [hitems] at h; simp at h; subst h; exact itemsOf_err _ _ hitems
          | ok citems =>
            simp only [hitems] at h
            cases htext : firstText "input_text" citems with
            | error e2 =>
              simp only [htext] at h; simp at h; subst h; exact firstText_err _ _ _ htext
            | ok text =>
              simp only [htext] at h
              cases hrest : convertToMessages rest with
              | error e2 => simp only [hrest] at h; simp at h; subst h; exact ih _ hrest
              | ok tail => simp only [hrest] at h; simp at h
        · simp only [hu, if_false] at h
          by_cases ha : jsonBeq role (.jstr "assistant")
          · simp only [ha, if_true] at h
            cases hitems : itemsOf content with
            | error e2 => simp only [hitems] at h; simp at h; subst h; exact itemsOf_err _ _ hitems
            | ok citems =>
              simp only [hitems] at h
              cases htext : firstText "output_text" citems with
              | error e2 =>
                simp only [htext] at h; simp at h; subst h; exact firstText_err _ _ _ htext
              | ok text =>
                simp only [htext] at h
                cases hrest : convertToMessages rest with
                | error e2 => simp only [hrest] at h; simp at h; subst h; exact ih _ hrest
                | ok tail => simp only [hrest] at h; simp at h
          · simp only [ha, if_false] at h
            exact ih e h

/-- Helper: the dash-scheme message loop only raises dynamic-access
exceptions. -/
lemma formatConcatCc_err : ∀ (l : List Json) (e : ConvErr),
    formatConcatCc l = .error e → dynErr e := by
  intro l
  induction l with
  | nil => intro e h; simp [formatConcatCc] at h
  | cons m rest ih =>
    intro e h
    simp only [formatConcatCc] at h
    cases hrole : jindex m "role" with
    | error e2 => simp only [hrole] at h; simp at h; subst h; exact jindex_err _ _ _ hrole
    | ok role =>
      simp only [hrole] at h
      cases hcont : pyGetD m "content" (.jstr "") with
      | error e2 => simp only [hcont] at h; simp at h; subst h; exact pyGetD_err _ _ _ _ hcont
      | ok content =>
        simp only [hcont] at h
        cases hrest : formatConcatCc rest with
        | error e2 => simp only [hrest] at h; simp at h; subst h; exact ih _ hrest
        | ok s => simp only [hrest] at h; simp at h

/-- Helper: the dash-scheme renderer only raises dynamic-access exceptions. -/
lemma formatMessagesCc_err (l : List Json) (e : ConvErr)
    (h : formatMessagesCc l = .error e) : dynErr e := by
  unfold formatMessagesCc at h
  cases hc : formatConcatCc l with
  | error e2 => simp only [hc] at h; simp at h; subst h; exact formatConcatCc_err _ _ hc
  | ok s => simp only [hc] at h; simp at h

/-- Helper: the markdown branch of either handler only raises dynamic-access
exceptions — never the two `ValueError`s. -/
lemma handler_to_markdown_err (hd : Handler) (j : Json) (e : ConvErr)
    (h : handler_to_markdown hd j = .error e) : dynErr e := by
  cases hd with
  | playground =>
    simp only [handler_to_markdown, playground_to_markdown] at h
    cases h1 : pyGetD j "model" (.jstr "unknown") with
    | error e2 => simp only [h1] at h; simp at h; subst h; exact pyGetD_err _ _ _ _ h1
    | ok model =>
      simp only [h1] at h
      cases h2 : pyGetD j "input" (.jarr []) with
      | error e2 => simp only [h2] at h; simp at h; subst h; exact pyGetD_err _ _ _ _ h2
      | ok inp =>
        simp only [h2] at h
        cases h3 : itemsOf inp with
        | error e2 => simp only [h3] at h; simp at h; subst h; exact itemsOf_err _ _ h3
        | ok items =>
          simp only [h3] at h
          cases h4 : convertToMessages items with
          | error e2 => simp only [h4] at h; simp at h; subst h; exact convertToMessages_err _ _ h4
          | ok msgs =>
            simp only [h4] at h
            cases h5 : formatMessagesCc msgs with
            | error e2 => simp only [h5] at h; simp at h; subst h; exact formatMessagesCc_err _ _ h5
            | ok body => simp only [h5] at h; simp at h
  | workbench =>
    simp only [handler_to_markdown, workbench_to_markdown] at h
    cases h1 : jindex j "messages" with
    | error e2 => simp only [h1] at h; simp at h; subst h; exact jindex_err _ _ _ h1
    | ok msgs =>
      simp only [h1] at h
      cases h2 : itemsOf msgs with
      | error e2 => simp only [h2] at h; simp at h; subst h; exact itemsOf_err _ _ h2
      | ok items =>
        simp only [h2] at h
        cases h3 : formatMessagesCc items with
        | error e2 => simp only [h3] at h; simp at h; subst h; exact formatMessagesCc_err _ _ h3
        | ok body => simp only [h3] at h; simp at h

/-- Helper: the workbench branch of either handler only raises
dynamic-access exceptions. -/
lemma handler_to_workbench_err (hd : Handler) (j : Json) (e : ConvErr)
    (h : handler_to_workbench hd j = .error e) : dynErr e := by
  cases hd with
  | playground =>
    simp only [handler_to_workbench, playground_to_workbench] at h
    cases h1 : pyGetD j "input" (.jarr []) with
    | error e2 => simp only [h1] at h; simp at h; subst h; exact pyGetD_err _ _ _ _ h1
    | ok inp =>
      simp only [h1] at h
      cases h2 : itemsOf inp with
      | error e2 => simp only [h2] at h; simp at h; subst h; exact itemsOf_err _ _ h2
      | ok items =>
        simp only [h2] at h
        cases h3 : convertToMessages items with
        | error e2 => simp only [h3] at h; simp at h; subst h; exact convertToMessages_err _ _ h3
        | ok msgs => simp only [h3] at h; simp at h
  | workbench => simp [handler_to_workbench, workbench_to_workbench] at h

/-- Helper: `detect_format` raises `UnsupportedFormat` exactly when both
registered capability predicates return false. -/
lemma detect_unsupported_iff (j : Json) :
    detect_format j = .error .unsupportedFormat ↔
      (playground_can_handle j = .ok false ∧ workbench_can_handle j = .ok false) := by
  unfold detect_format
  cases h1 : playground_can_handle j with
  | error e =>
    have he := pyIn_err "input" j e h1
    subst he
    simp [h1]
  | ok b =>
    cases b with
    | true => simp [h1]
    | false =>
      cases h2 : workbench_can_handle j with
      | error e =>
        have he := pyIn_err "messages" j e h2
        subst he
        simp [h1, h2]
      | ok b2 => cases b2 <;> simp [h1, h2]

/-- C8 (corrected): `convert_format` fails with `UnsupportedFormat` exactly
when neither of the two registered JSON-shape predicates matches — the HTML
extractor's predicate is not consulted, so an input matching only the HTML
predicate still yields `UnsupportedFormat`; and it fails with
`UnsupportedOutputFormat` when detection succeeded and the output selector is
neither `markdown` nor `workbench`. -/
theorem c8_error_conditions :
    (∀ (j : Json) (fmt : String), convert_format j fmt = .error .unsupportedFormat ↔
      (playground_can_handle j = .ok false ∧ workbench_can_handle j = .ok false)) ∧
    (∀ (j : Json) (fmt : String) (hd : Handler), detect_format j = .ok hd →
      fmt ≠ "markdown" → fmt ≠ "workbench" →
      convert_format j fmt = .error (.unsupportedOutput fmt)) := by
  constructor
  · intro j fmt
    constructor
    · intro h
      unfold convert_format at h
      cases hdet : detect_format j with
      | error e =>
        simp only [hdet] at h
        simp at h
        subst h
        exact (detect_unsupported_iff j).mp hdet
      | ok hd =>
        simp only [hdet] at h
        by_cases hm : fmt == "markdown"
        · simp only [hm, if_true] at h
          cases hmd : handler_to_markdown hd j with
          | error e =>
            simp only [hmd] at h
            simp at h
            subst h
            rcases handler_to_markdown_err hd j _ hmd with h' | h' | h' <;> simp at h'
          | ok s => simp only [hmd] at h; simp at h
        · simp only [hm, if_false] at h
          by_cases hw : fmt == "workbench"
          · simp only [hw, if_true] at h
            cases hwb : handler_to_workbench hd j with
            | error e =>
              simp only [hwb] at h
              simp at h
              subst h
              rcases handler_to_workbench_err hd j _ hwb with h' | h' | h' <;> simp at h'
            | ok out => simp only [hwb] at h; simp at h
          · simp only [hw, if_false] at h
            simp at h
    · intro ⟨h1, h2⟩
      have hdet := (detect_unsupported_iff j).mpr ⟨h1, h2⟩
      simp [convert_format, hdet]
  · intro j fmt hd hdet hm hw
    have hmb : (fmt == "markdown") = false := by simpa using hm
    have hwb : (fmt == "workbench") = false := by simpa using hw
    simp [convert_format, hdet, hmb, hwb]

/-- C8 counterexample: `c8Str` satisfies the HTML extractor's capability
predicate, yet conversion fails with `UnsupportedFormat`, refuting
"`UnsupportedFormat` exactly when no extractor's capability predicate
matches". -/
theorem c8_error_conditions_cex :
    chatgpt_can_handle (.jstr c8Str) = true ∧
    convert_format (.jstr c8Str) "workbench" = .error .unsupportedFormat := ⟨rfl, rfl⟩

/-- C8 witness: both amended error laws evaluated at concrete inputs. -/
theorem c8_error_conditions_witness :
    convert_format (.jstr "zzz") "workbench" = .error .unsupportedFormat ∧
    convert_format c2Json "html" = .error (.unsupportedOutput "html") :=
  ⟨(c8_error_conditions.1 (.jstr "zzz") "workbench").mpr ⟨rfl, rfl⟩,
   c8_error_conditions.2 c2Json "html" .workbench rfl (by decide) (by decide)⟩

end ChatConv
